import Mathlib

/-!
# UrlScanner01 — verification of the normalization and verdict engine

Shallow embedding of the repository's scan-result normalization pipeline
(`src/n8nClient.js`), the verdict decision engine (`decideVerdict`), the
third-party sub-verdict parser (`parseVTResult`) and the WHOIS utilities
(`src/whoisUtils.js`).

JavaScript runtime values are modelled by the inductive type `JVal`
(JSON-style values plus `undefined` and `NaN`; numbers are exact rationals,
which covers every numeric computation the engine performs — counts,
divisions, `Math.round` — without floating-point artifacts).  Host
primitives of the JS environment (the `Date` parser, `toLocaleDateString`
and the current time) are passed as explicit parameters to the WHOIS
functions.
-/

namespace UrlScanner

/-- A JavaScript runtime value: `null`, `undefined`, booleans, numbers
(exact rationals, with `nan` kept as a separate constructor), strings,
arrays and plain objects (ordered key/value lists, keys unique by
construction of every operation below). -/
inductive JVal where
  | null
  | undef
  | nan
  | bool (b : Bool)
  | num (q : ℚ)
  | str (s : String)
  | arr (elems : List JVal)
  | obj (fields : List (String × JVal))

/-- JS `ToBoolean`: `null`, `undefined`, `NaN`, `false`, `0` and `""` are
falsy; every other value (including every array and object) is truthy. -/
def truthy : JVal → Bool
  | .null => false
  | .undef => false
  | .nan => false
  | .bool b => b
  | .num q => !(q = 0 : Bool)
  | .str s => !(s = "" : Bool)
  | .arr _ => true
  | .obj _ => true

/-- Is the value exactly `undefined`?  (Models JS `x !== undefined`; an
absent object property reads as `undefined`.) -/
def isUndef : JVal → Bool
  | .undef => true
  | _ => false

/-- JS `Array.isArray`. -/
def isArr : JVal → Bool
  | .arr _ => true
  | _ => false

/-- JS `typeof v === 'object'` (true for objects, arrays and `null`). -/
def isObjectTyped : JVal → Bool
  | .obj _ => true
  | .arr _ => true
  | .null => true
  | _ => false

/-- Look a key up in an object's field list (first match; all operations
below keep keys unique, so first match is the only match). -/
def lookupField : List (String × JVal) → String → JVal
  | [], _ => .undef
  | (k', v) :: rest, k => if k' = k then v else lookupField rest k

/-- Does the field list contain the key? -/
def containsKey : List (String × JVal) → String → Bool
  | [], _ => false
  | (k', _) :: rest, k => k' = k || containsKey rest k

/-- Set a key in a field list: update in place when present (preserving
key order, as JS object spread does), append otherwise. -/
def setKey : List (String × JVal) → String → JVal → List (String × JVal)
  | [], k, v => [(k, v)]
  | (k', v') :: rest, k, v =>
      if k' = k then (k', v) :: rest else (k', v') :: setKey rest k v

/-- Index properties of an array (or of a string's characters), as the
key/value list a JS spread of that value would produce.  (The `length`
property is not modelled; the engine never reads it through a property
lookup.) -/
def indexFields (xs : List JVal) : List (String × JVal) :=
  (xs.enum.map fun p => (toString p.1, p.2))

/-- The own enumerable properties a JS spread `{...v}` copies: an object's
fields, an array's (or string's) index properties, nothing for the
primitives. -/
def baseFields : JVal → List (String × JVal)
  | .obj fs => fs
  | .arr xs => indexFields xs
  | .str s => indexFields (s.toList.map fun c => .str (String.mk [c]))
  | _ => []

/-- JS property read `v[k]` (own properties only; prototype members such
as `length` are not modelled, the engine never uses them through this
path). -/
def getField (v : JVal) (k : String) : JVal :=
  lookupField (baseFields v) k

/-- JS object literal with spread, `{...base, k₁: v₁, …}`: start from the
spread of `base` and set each explicit key in order. -/
def spreadUpdate (base : JVal) (kvs : List (String × JVal)) : JVal :=
  .obj (kvs.foldl (fun fs kv => setKey fs kv.1 kv.2) (baseFields base))

/-- JS `a || b`. -/
def jsOr (a b : JVal) : JVal := if truthy a then a else b

/-- JS optional chaining `v?.k`: `undefined` when `v` is `null` or
`undefined`, a plain property read otherwise. -/
def jsOptChain (v : JVal) (k : String) : JVal :=
  match v with
  | .null => .undef
  | .undef => .undef
  | _ => getField v k

/-- Numeric value of a decimal digit list (most significant first; callers
guarantee every character is a digit). -/
def digitsVal (cs : List Char) : ℕ :=
  cs.foldl (fun a c => a * 10 + (c.toNat - 48)) 0

/-- JS `ToNumber` on a string: surrounding whitespace is trimmed, the
empty string is `0`, an optional sign followed by a plain decimal literal
(`12`, `12.5`, `.5`, `7.`) parses to its exact value, anything else is
`NaN` (`none`).  Exponent, hexadecimal and `Infinity` forms are abstracted
to `NaN`; no verified property depends on them. -/
def jsParseNumber (s : String) : Option ℚ :=
  let t := s.trim
  if t = "" then some 0
  else
    let (sgn, body) : ℚ × List Char :=
      match t.toList with
      | '-' :: r => (-1, r)
      | '+' :: r => (1, r)
      | r => (1, r)
    let intPart := body.takeWhile Char.isDigit
    let rest := body.dropWhile Char.isDigit
    match rest with
    | [] =>
        if intPart = [] then none
        else some (sgn * digitsVal intPart)
    | '.' :: fracRest =>
        let fracPart := fracRest.takeWhile Char.isDigit
        let rest2 := fracRest.dropWhile Char.isDigit
        if rest2 ≠ [] then none
        else if intPart = [] ∧ fracPart = [] then none
        else some (sgn * ((digitsVal intPart : ℚ) +
          (digitsVal fracPart : ℚ) / (10 : ℚ) ^ fracPart.length))
    | _ => none

mutual

/-- JS `ToString`.  Numbers print exactly when integral; the decimal
rendering of a non-integral rational is abstracted as `num/den` (no
verified property depends on it).  Arrays join their elements with `,`,
with `null`/`undefined` elements rendered empty, as `Array.prototype.join`
does; objects render as `[object Object]`. -/
def jsToString : JVal → String
  | .null => "null"
  | .undef => "undefined"
  | .nan => "NaN"
  | .bool b => if b then "true" else "false"
  | .num q => if q.den = 1 then toString q.num else toString q.num ++ "/" ++ toString q.den
  | .str s => s
  | .arr xs => String.intercalate "," (jsToStringElems xs)
  | .obj _ => "[object Object]"

/-- Elementwise rendering used by the array case of `jsToString`. -/
def jsToStringElems : List JVal → List String
  | [] => []
  | .null :: rest => "" :: jsToStringElems rest
  | .undef :: rest => "" :: jsToStringElems rest
  | x :: rest => jsToString x :: jsToStringElems rest

end

/-- JS `ToNumber`, with `none` standing for `NaN`.  Arrays and objects go
through `ToString` first (the `ToPrimitive` default). -/
def toNumber : JVal → Option ℚ
  | .null => some 0
  | .undef => none
  | .nan => none
  | .bool b => some (if b then 1 else 0)
  | .num q => some q
  | .str s => jsParseNumber s
  | .arr xs => jsParseNumber (jsToString (.arr xs))
  | .obj _ => none

/-- JS `a > b`: string comparison when both operands are strings, numeric
comparison otherwise; any `NaN` operand makes the comparison false. -/
def jsGT : JVal → JVal → Bool
  | .str a, .str b => decide (b < a)
  | a, b =>
      match toNumber a, toNumber b with
      | some x, some y => decide (y < x)
      | _, _ => false

/-- JS `a >= b` (false when either side converts to `NaN`). -/
def jsGE : JVal → JVal → Bool
  | .str a, .str b => decide (¬ a < b)
  | a, b =>
      match toNumber a, toNumber b with
      | some x, some y => decide (y ≤ x)
      | _, _ => false

/-- JS `Math.round` on an exact rational: round half toward `+∞`,
i.e. the floor of `q + 1/2` (stated through the executable `Rat.floor`;
`jsRound_eq_floor` below identifies it with the mathematical floor). -/
def jsRound (q : ℚ) : ℚ := (((q + 1 / 2).floor : ℤ) : ℚ)

/-- JS `Math.round` lifted to runtime values (`Math.round(NaN)` is `NaN`). -/
def jsRoundJ (v : JVal) : JVal :=
  match toNumber v with
  | some q => .num (jsRound q)
  | none => .nan

/-- JS `Math.max` restricted to its use sites in the engine (numeric
arguments; a `NaN` operand gives `NaN`). -/
def jsMax (a b : JVal) : JVal :=
  match toNumber a, toNumber b with
  | some x, some y => .num (max x y)
  | _, _ => .nan

/-- JS `a / b` on runtime values.  In the engine this is evaluated only
under a `totalEngines > 0` guard, so the divisor is a nonzero number
whenever the expression is reached. -/
def jsDiv (a b : JVal) : JVal :=
  match toNumber a, toNumber b with
  | some x, some y => .num (x / y)
  | _, _ => .nan

/-- JS `a * b` on runtime values. -/
def jsMul (a b : JVal) : JVal :=
  match toNumber a, toNumber b with
  | some x, some y => .num (x * y)
  | _, _ => .nan

/-!
## Verdict decision engine (`decideVerdict`, src/unnamed/part_002)

The per-category body is split into the straight-line pieces of the
source, one definition per assignment, so that the theorems can speak
about the intermediate values (`maliciousCount`, `totalEngines`,
`riskScore`, the freshly computed verdict and the escalation merge).
-/

/-- The initial `maliciousCount` scan (lines 17–24): one increment per
result whose own `risk_score` is truthy and `> 50`. -/
def mcScan (c : JVal) : ℚ :=
  match getField c "results" with
  | .arr rs =>
      if 0 < rs.length then
        (rs.countP fun r =>
          truthy (getField r "risk_score") && jsGT (getField r "risk_score") (.num 50) : ℕ)
      else 0
  | _ => 0

/-- `maliciousCount` after the detections block (lines 27–31): the length
of a non-empty `detections` array is added. -/
def mcBase (c : JVal) : ℚ :=
  match getField c "detections" with
  | .arr ds => if 0 < ds.length then mcScan c + (ds.length : ℚ) else mcScan c
  | _ => mcScan c

/-- `totalEngines` after the detections block (lines 27–31): raised to
`Math.max(totalEngines, 70)` when `detections` is a non-empty array,
otherwise still its initial `0`. -/
def teBase (c : JVal) : JVal :=
  match getField c "detections" with
  | .arr ds => if 0 < ds.length then jsMax (.num 0) (.num 70) else .num 0
  | _ => .num 0

/-- `maliciousCount` after the explicit-count override (lines 34–36): an
existing `malicious_count` field (any value other than `undefined`)
replaces the computed count entirely. -/
def mcFinal (c : JVal) : JVal :=
  if isUndef (getField c "malicious_count") then .num (mcBase c)
  else getField c "malicious_count"

/-- `totalEngines` after the explicit-count override (lines 37–39). -/
def teFinal (c : JVal) : JVal :=
  if isUndef (getField c "total_engines") then teBase c
  else getField c "total_engines"

/-- The `riskScore` computation (lines 41–46): when `totalEngines > 0`
it is `Math.round((maliciousCount / totalEngines) * 100)`; otherwise a
truthy pre-existing `risk_score` is used; otherwise it stays `0`. -/
def riskScoreCalc (c : JVal) : JVal :=
  if jsGT (teFinal c) (.num 0) then
    jsRoundJ (jsMul (jsDiv (mcFinal c) (teFinal c)) (.num 100))
  else if truthy (getField c "risk_score") then getField c "risk_score"
  else .num 0

/-- The verdict heuristics (lines 48–55). -/
def classifyVerdict (riskScore maliciousCount : JVal) : JVal :=
  if jsGE riskScore (.num 70) || jsGE maliciousCount (.num 10) then .str "MALICIOUS"
  else if jsGE riskScore (.num 40) || jsGE maliciousCount (.num 3) then .str "SUSPICIOUS"
  else .str "CLEAN"

/-- The freshly computed verdict of a category. -/
def computedVerdict (c : JVal) : JVal :=
  classifyVerdict (riskScoreCalc c) (mcFinal c)

/-- The `verdictRank` table of line 59, with the `|| 0` fallback of
lines 60–61.  A JS computed property key `verdictRank[v]` is coerced
with `ToString`, so the lookup key is `jsToString v`: a string ranks by
its own text, and a non-string such as the array `["MALICIOUS"]` coerces
to the key `"MALICIOUS"` (rank `3`), while `null`, `undefined`, numbers,
booleans and plain objects coerce to keys outside the table (rank `0`). -/
def verdictRank (v : JVal) : ℕ :=
  let key := jsToString v
  if key = "MALICIOUS" then 3
  else if key = "SUSPICIOUS" then 2
  else if key = "CLEAN" then 1
  else 0

/-- On string verdicts the rank table reads off the string itself. -/
theorem verdictRank_str (s : String) :
    verdictRank (.str s) =
      (if s = "MALICIOUS" then 3
       else if s = "SUSPICIOUS" then 2
       else if s = "CLEAN" then 1
       else 0) := rfl

/-- The escalation merge (lines 57–65): a truthy pre-existing verdict
whose rank strictly exceeds the computed verdict's rank wins. -/
def mergedVerdict (c : JVal) : JVal :=
  if truthy (getField c "verdict") then
    if verdictRank (getField c "verdict") > verdictRank (computedVerdict c) then
      getField c "verdict"
    else computedVerdict c
  else computedVerdict c

/-- The per-category result object (lines 67–73): the input spread first,
then `verdict`, `risk_score` (the pre-existing value whenever the field
is not `undefined`, else the computed one), `malicious_count` and
`total_engines` (`|| 1`). -/
def decideOne (c : JVal) : JVal :=
  spreadUpdate c
    [("verdict", mergedVerdict c),
     ("risk_score",
        if isUndef (getField c "risk_score") then riskScoreCalc c
        else getField c "risk_score"),
     ("malicious_count", mcFinal c),
     ("total_engines", jsOr (teFinal c) (.num 1))]

/-- `decideVerdict` (lines 5–75): non-array input is returned unchanged,
an array is mapped through the per-category body. -/
def decideVerdict (normalized : JVal) : JVal :=
  match normalized with
  | .arr cats => .arr (cats.map decideOne)
  | v => v

/-!
## Result field normalizer and shape detector (`src/n8nClient.js`)
-/

/-- The favicon remote-URL alias chain of `normalizeResult` (line 22):
`r.favicon_url || r.favicon || r.faviconUrl || r.favicon_image_url ||
r.favicons?.[0]?.url || null`. -/
def faviconUrlOf (r : JVal) : JVal :=
  jsOr (getField r "favicon_url")
    (jsOr (getField r "favicon")
      (jsOr (getField r "faviconUrl")
        (jsOr (getField r "favicon_image_url")
          (jsOr (jsOptChain (jsOptChain (getField r "favicons") "0") "url") .null))))

/-- The favicon base64 alias chain (line 23). -/
def faviconBase64Of (r : JVal) : JVal :=
  jsOr (getField r "favicon_base64")
    (jsOr (getField r "faviconBase64")
      (jsOr (getField r "favicon_data") (jsOr (getField r "faviconData") .null)))

/-- The screenshot base64 alias chain (line 24). -/
def screenshotBase64Of (r : JVal) : JVal :=
  jsOr (jsOptChain (getField r "screenshot") "screenshot_base64")
    (jsOr (getField r "screenshot_base64") (jsOr (getField r "screenshotBase64") .null))

/-- The screenshot remote-URL alias chain (line 25). -/
def screenshotUrlOf (r : JVal) : JVal :=
  jsOr (jsOptChain (getField r "screenshot") "image_url")
    (jsOr (getField r "screenshot_url") (jsOr (getField r "screenshotUrl") .null))

/-- The canonical `favicon_src` (lines 27–29): the resolved URL, else a
`data:` reference wrapping the base64 payload, else `null`. -/
def faviconSrcOf (r : JVal) : JVal :=
  if truthy (faviconUrlOf r) then faviconUrlOf r
  else if truthy (faviconBase64Of r) then
    .str ("data:image/png;base64," ++ jsToString (faviconBase64Of r))
  else .null

/-- The canonical `screenshot_src` (lines 31–33). -/
def screenshotSrcOf (r : JVal) : JVal :=
  if truthy (screenshotUrlOf r) then screenshotUrlOf r
  else if truthy (screenshotBase64Of r) then
    .str ("data:image/png;base64," ++ jsToString (screenshotBase64Of r))
  else .null

/-- `normalizeResult` (lines 18–42): falsy or non-object input passes
through; otherwise a new object layers `favicon_url`, `favicon_base64`,
`favicon_src` and `screenshot_src` on top of a shallow copy of the
input. -/
def normalizeResult (r : JVal) : JVal :=
  if !truthy r || !isObjectTyped r then r
  else
    spreadUpdate r
      [("favicon_url", jsOr (faviconUrlOf r) .null),
       ("favicon_base64", jsOr (faviconBase64Of r) .null),
       ("favicon_src", faviconSrcOf r),
       ("screenshot_src", screenshotSrcOf r)]

/-- Per-category treatment of the array-shaped branches of
`normalizeScanResponse` (lines 46, 51, 55): a shallow copy whose
`results`, when an array, is mapped through `normalizeResult`. -/
def normCatResults (cat : JVal) : JVal :=
  spreadUpdate cat
    [("results",
        match getField cat "results" with
        | .arr rs => .arr (rs.map normalizeResult)
        | other => other)]

/-- The synthetic single-category wrap of lines 60–73. -/
def syntheticCategory (raw : JVal) : JVal :=
  .obj
    [("verdict", jsOr (getField raw "verdict") (.str "UNKNOWN")),
     ("risk_score", jsOr (getField raw "risk_score") (.num 0)),
     ("confidence", jsOr (getField raw "confidence") (.str "N/A")),
     ("malicious_count", jsOr (getField raw "malicious_count") (.num 0)),
     ("total_engines", jsOr (getField raw "total_engines") (.num 0)),
     ("detections",
        match getField raw "detections" with
        | .arr ds => .arr ds
        | _ => .arr []),
     ("results",
        match getField raw "results" with
        | .arr rs => .arr (rs.map normalizeResult)
        | _ =>
          match getField raw "items" with
          | .arr its => .arr (its.map normalizeResult)
          | _ => .arr []),
     ("count",
        jsOr (getField raw "count")
          (match getField raw "results" with
           | .arr rs => .num rs.length
           | _ => .num 1)),
     ("_raw", raw)]

/-- The synthetic single-scan-result wrap of lines 78–90. -/
def scanResultCategory (raw : JVal) : JVal :=
  .obj
    [("verdict", .str "UNKNOWN"),
     ("risk_score", .num 0),
     ("confidence", .str "N/A"),
     ("malicious_count", .num 0),
     ("total_engines", .num 0),
     ("detections", .arr []),
     ("results", .arr [normalizeResult raw]),
     ("count", .num 1),
     ("_raw", raw)]

/-- `normalizeScanResponse` (lines 44–95), the shape detector: the five
recognized shapes in the source's priority order, empty array fallback. -/
def normalizeScanResponse (raw : JVal) : JVal :=
  match raw with
  | .arr cats => .arr (cats.map normCatResults)
  | .obj _ =>
      match getField raw "categories" with
      | .arr cats => .arr (cats.map normCatResults)
      | _ =>
        if (match getField raw "results" with
            | .arr (r0 :: _) => truthy (getField r0 "verdict")
            | _ => false) then
          match getField raw "results" with
          | .arr cats => .arr (cats.map normCatResults)
          | _ => .arr []
        else if truthy (getField raw "verdict") || truthy (getField raw "risk_score")
            || isArr (getField raw "results") then
          .arr [syntheticCategory raw]
        else if truthy (getField raw "input_url") || truthy (getField raw "domain")
            || truthy (getField raw "ip") then
          .arr [scanResultCategory raw]
        else .arr []
  | _ => .arr []

/-!
## WHOIS normalizer and derived-metrics calculator (`src/whoisUtils.js`)

The host `Date` primitives are explicit parameters: `parseDate` models
`new Date(string)` (returning the epoch-millisecond timestamp, `none` for
an Invalid Date), `fmtDate` models `toLocaleDateString` on a valid
timestamp, and `now` is the current epoch-millisecond time.
-/

/-- Is the value a string?  (JS `typeof v === 'string'`.) -/
def isStr : JVal → Bool
  | .str _ => true
  | _ => false

/-- `Array.isArray(v) ? v[0] : v` — the array-or-scalar date extraction
shared by the date helpers. -/
def arrayFirst (v : JVal) : JVal :=
  if isArr v then getField v "0" else v

/-- `new Date(x)` as an epoch-millisecond timestamp (`none` = Invalid
Date): strings go through the host parser, numbers are timestamps,
booleans and `null` coerce numerically, `undefined`/`NaN` are invalid,
arrays and objects go through `ToString` first. -/
def dateToMs (parseDate : String → Option ℚ) : JVal → Option ℚ
  | .str s => parseDate s
  | .num q => some q
  | .bool b => some (if b then 1 else 0)
  | .null => some 0
  | .undef => none
  | .nan => none
  | .arr xs => parseDate (jsToString (.arr xs))
  | .obj fs => parseDate (jsToString (.obj fs))

/-- `formatWhoisDate` (lines 56–75): falsy input gives `null`; a sequence
is replaced by its first element; an unparseable value is returned as-is;
a valid date is rendered through the locale formatter. -/
def formatWhoisDate (parseDate : String → Option ℚ) (fmtDate : ℚ → String)
    (dateValue : JVal) : JVal :=
  if !truthy dateValue then .null
  else
    let dateStr := arrayFirst dateValue
    if !truthy dateStr then .null
    else
      match dateToMs parseDate dateStr with
      | none => dateStr
      | some ms => .str (fmtDate ms)

/-- `calculateDomainAge` (lines 82–100): age in years, one decimal,
`null` when the creation date is falsy or unparseable. -/
def calculateDomainAge (parseDate : String → Option ℚ) (now : ℚ)
    (creationDate : JVal) : JVal :=
  if !truthy creationDate then .null
  else
    let dateStr := arrayFirst creationDate
    if !truthy dateStr then .null
    else
      match dateToMs parseDate dateStr with
      | none => .null
      | some ms =>
          .num (jsRound ((now - ms) / (1000 * 60 * 60 * 24 * (1461 / 4)) * 10) / 10)

/-- `calculateDomainAgeInDays` (lines 107–125). -/
def calculateDomainAgeInDays (parseDate : String → Option ℚ) (now : ℚ)
    (creationDate : JVal) : JVal :=
  if !truthy creationDate then .null
  else
    let dateStr := arrayFirst creationDate
    if !truthy dateStr then .null
    else
      match dateToMs parseDate dateStr with
      | none => .null
      | some ms => .num ((⌊(now - ms) / (1000 * 60 * 60 * 24)⌋ : ℤ) : ℚ)

/-- `daysUntilExpiration` (lines 132–150). -/
def daysUntilExpiration (parseDate : String → Option ℚ) (now : ℚ)
    (expirationDate : JVal) : JVal :=
  if !truthy expirationDate then .null
  else
    let dateStr := arrayFirst expirationDate
    if !truthy dateStr then .null
    else
      match dateToMs parseDate dateStr with
      | none => .null
      | some ms => .num ((⌊(ms - now) / (1000 * 60 * 60 * 24)⌋ : ℤ) : ℚ)

/-- `isDomainExpired` (lines 157–160): `days !== null && days < 0`. -/
def isDomainExpired (parseDate : String → Option ℚ) (now : ℚ)
    (expirationDate : JVal) : Bool :=
  match daysUntilExpiration parseDate now expirationDate with
  | .num d => decide (d < 0)
  | _ => false

/-- `isDomainExpiringSoon` (lines 167–170). -/
def isDomainExpiringSoon (parseDate : String → Option ℚ) (now : ℚ)
    (expirationDate : JVal) : Bool :=
  match daysUntilExpiration parseDate now expirationDate with
  | .num d => decide (0 ≤ d ∧ d ≤ 30)
  | _ => false

/-- `formatNameServers` (lines 177–189). -/
def formatNameServers (nameServers : JVal) : JVal :=
  if !truthy nameServers then .arr []
  else
    match nameServers with
    | .arr xs => .arr (xs.filter fun ns => truthy ns && isStr ns)
    | .str s => .arr [.str s]
    | _ => .arr []

/-- `getRegistrantInfo` (lines 196–207), applied to the normalized field
object. -/
def getRegistrantInfo (whois : JVal) : JVal :=
  if !truthy whois then .null
  else
    .obj
      [("name", jsOr (getField whois "registrant_name") (jsOr (getField whois "registrant") .null)),
       ("organization", jsOr (getField whois "org") (jsOr (getField whois "registrant_organization") .null)),
       ("email", jsOr (getField whois "registrant_email") (jsOr (getField whois "email") .null)),
       ("country", jsOr (getField whois "country") (jsOr (getField whois "registrant_country") .null)),
       ("state", jsOr (getField whois "state") (jsOr (getField whois "registrant_state") .null)),
       ("city", jsOr (getField whois "city") (jsOr (getField whois "registrant_city") .null))]

/-- `getDomainStatus` (lines 214–228). -/
def getDomainStatus (whois : JVal) : JVal :=
  if !truthy whois then .arr []
  else
    match jsOr (getField whois "status") (getField whois "domain_status") with
    | .arr xs => .arr (xs.filter fun s => truthy s && isStr s)
    | .str s => .arr [.str s]
    | _ => .arr []

/-- `hasWhoisData` (lines 10–23): falsy or non-object input has no data;
otherwise at least one of the fourteen checked keys must be truthy.  Note
the checked set is narrower than the alias set `normalizeWhoisFields`
resolves (`sponsoring_registrar`, `nserver`, `domainName`, `created_date`,
`expiry_date`, … are not checked here). -/
def hasWhoisData (whois : JVal) : Bool :=
  if !truthy whois || !isObjectTyped whois then false
  else
    truthy (getField whois "domain_name") || truthy (getField whois "domain")
    || truthy (getField whois "registrar")
    || truthy (getField whois "org") || truthy (getField whois "organization")
    || truthy (getField whois "country")
    || truthy (getField whois "creation_date") || truthy (getField whois "created")
    || truthy (getField whois "creationDate")
    || truthy (getField whois "expiration_date") || truthy (getField whois "expires")
    || truthy (getField whois "expirationDate")
    || truthy (getField whois "name_servers") || truthy (getField whois "nameServers")

/-- `normalizeWhoisFields` (lines 30–49): ordered alias resolution,
first truthy value wins, the last alias read as-is (possibly
`undefined`). -/
def normalizeWhoisFields (whois : JVal) : JVal :=
  if !truthy whois then .obj []
  else
    .obj
      [("domain_name", jsOr (getField whois "domain_name") (jsOr (getField whois "domain") (getField whois "domainName"))),
       ("registrar", jsOr (getField whois "registrar") (getField whois "sponsoring_registrar")),
       ("org", jsOr (getField whois "org") (jsOr (getField whois "organization") (jsOr (getField whois "registrant_organization") (getField whois "registrant_org")))),
       ("country", jsOr (getField whois "country") (getField whois "registrant_country")),
       ("state", jsOr (getField whois "state") (getField whois "registrant_state")),
       ("city", jsOr (getField whois "city") (getField whois "registrant_city")),
       ("creation_date", jsOr (getField whois "creation_date") (jsOr (getField whois "created") (jsOr (getField whois "creationDate") (getField whois "created_date")))),
       ("updated_date", jsOr (getField whois "updated_date") (jsOr (getField whois "updated") (jsOr (getField whois "updatedDate") (getField whois "last_updated")))),
       ("expiration_date", jsOr (getField whois "expiration_date") (jsOr (getField whois "expires") (jsOr (getField whois "expirationDate") (getField whois "expiry_date")))),
       ("name_servers", jsOr (getField whois "name_servers") (jsOr (getField whois "nameServers") (getField whois "nserver"))),
       ("status", jsOr (getField whois "status") (jsOr (getField whois "domain_status") (getField whois "domainStatus"))),
       ("registrant_name", jsOr (getField whois "registrant_name") (getField whois "registrant")),
       ("registrant_email", jsOr (getField whois "registrant_email") (getField whois "email")),
       ("dnssec", getField whois "dnssec")]

/-- `parseWhoisData` (lines 235–264): `null` exactly when `hasWhoisData`
rejects the input, otherwise the full structured record. -/
def parseWhoisData (parseDate : String → Option ℚ) (fmtDate : ℚ → String)
    (now : ℚ) (whois : JVal) : JVal :=
  if !hasWhoisData whois then .null
  else
    let normalized := normalizeWhoisFields whois
    .obj
      [("domain", jsOr (getField normalized "domain_name") .null),
       ("registrar", jsOr (getField normalized "registrar") .null),
       ("registrant", getRegistrantInfo normalized),
       ("dates", .obj
          [("created", formatWhoisDate parseDate fmtDate (getField normalized "creation_date")),
           ("updated", formatWhoisDate parseDate fmtDate (getField normalized "updated_date")),
           ("expires", formatWhoisDate parseDate fmtDate (getField normalized "expiration_date")),
           ("age", calculateDomainAge parseDate now (getField normalized "creation_date")),
           ("ageInDays", calculateDomainAgeInDays parseDate now (getField normalized "creation_date")),
           ("daysToExpiry", daysUntilExpiration parseDate now (getField normalized "expiration_date"))]),
       ("nameServers", formatNameServers (getField normalized "name_servers")),
       ("status", getDomainStatus normalized),
       ("dnssec", jsOr (getField normalized "dnssec") .null),
       ("isExpired", .bool (isDomainExpired parseDate now (getField normalized "expiration_date"))),
       ("isExpiringSoon", .bool (isDomainExpiringSoon parseDate now (getField normalized "expiration_date"))),
       ("raw", whois)]

/-!
## Lemmas about the object-field primitives
-/

theorem lookupField_setKey (fs : List (String × JVal)) (k k' : String) (v : JVal) :
    lookupField (setKey fs k v) k' = if k = k' then v else lookupField fs k' := by
  induction fs with
  | nil => simp [setKey, lookupField]
  | cons hd tl ih =>
      obtain ⟨k0, v0⟩ := hd
      by_cases h0 : k0 = k
      · subst h0
        by_cases h1 : k0 = k'
        · subst h1; simp [setKey, lookupField]
        · simp [setKey, lookupField, h1]
      · by_cases h1 : k0 = k'
        · subst h1
          have : ¬ k = k0 := fun h => h0 h.symm
          simp [setKey, lookupField, h0, this]
        · simp [setKey, lookupField, h0, h1, ih]

theorem containsKey_setKey (fs : List (String × JVal)) (k k' : String) (v : JVal) :
    containsKey (setKey fs k v) k' = ((k = k' : Bool) || containsKey fs k') := by
  induction fs with
  | nil => simp [setKey, containsKey]
  | cons hd tl ih =>
      obtain ⟨k0, v0⟩ := hd
      by_cases h0 : k0 = k
      · subst h0
        by_cases h1 : k0 = k'
        · subst h1; simp [setKey, containsKey]
        · simp [setKey, containsKey, h1]
      · simp only [setKey, if_neg h0, containsKey, ih]
        by_cases h1 : k0 = k' <;> simp [h1]

theorem setKey_noop (fs : List (String × JVal)) (k : String) (v : JVal)
    (hc : containsKey fs k = true) (hl : lookupField fs k = v) :
    setKey fs k v = fs := by
  induction fs with
  | nil => simp [containsKey] at hc
  | cons hd tl ih =>
      obtain ⟨k0, v0⟩ := hd
      by_cases h0 : k0 = k
      · simp only [lookupField, if_pos h0] at hl
        simp [setKey, h0, hl]
      · simp only [containsKey, Bool.or_eq_true, decide_eq_true_eq] at hc
        simp only [lookupField, if_neg h0] at hl
        rcases hc with hc | hc
        · exact absurd hc h0
        · simp [setKey, h0, ih hc hl]

theorem getField_obj (fs : List (String × JVal)) (k : String) :
    getField (.obj fs) k = lookupField fs k := rfl

/-- Reading any key off the per-category output object of `decideOne`. -/
theorem getField_decideOne (c : JVal) (k : String) :
    getField (decideOne c) k =
      if "total_engines" = k then jsOr (teFinal c) (.num 1)
      else if "malicious_count" = k then mcFinal c
      else if "risk_score" = k then
        (if isUndef (getField c "risk_score") then riskScoreCalc c
         else getField c "risk_score")
      else if "verdict" = k then mergedVerdict c
      else getField c k := by
  simp only [decideOne, spreadUpdate, List.foldl, getField_obj, lookupField_setKey]
  rfl

theorem getField_decideOne_verdict (c : JVal) :
    getField (decideOne c) "verdict" = mergedVerdict c := by
  simp [getField_decideOne]

theorem getField_decideOne_risk (c : JVal) :
    getField (decideOne c) "risk_score" =
      (if isUndef (getField c "risk_score") then riskScoreCalc c
       else getField c "risk_score") := by
  simp [getField_decideOne]

theorem getField_decideOne_mc (c : JVal) :
    getField (decideOne c) "malicious_count" = mcFinal c := by
  simp [getField_decideOne]

theorem getField_decideOne_te (c : JVal) :
    getField (decideOne c) "total_engines" = jsOr (teFinal c) (.num 1) := by
  simp [getField_decideOne]

theorem getField_decideOne_other (c : JVal) (k : String)
    (h1 : k ≠ "verdict") (h2 : k ≠ "risk_score")
    (h3 : k ≠ "malicious_count") (h4 : k ≠ "total_engines") :
    getField (decideOne c) k = getField c k := by
  rw [getField_decideOne, if_neg (fun h => h4 h.symm), if_neg (fun h => h3 h.symm),
      if_neg (fun h => h2 h.symm), if_neg (fun h => h1 h.symm)]

/-!
## Lemmas about the verdict machinery
-/

theorem classifyVerdict_canonical (rs mc : JVal) :
    classifyVerdict rs mc = .str "MALICIOUS" ∨ classifyVerdict rs mc = .str "SUSPICIOUS"
      ∨ classifyVerdict rs mc = .str "CLEAN" := by
  unfold classifyVerdict
  by_cases h1 : (jsGE rs (.num 70) || jsGE mc (.num 10)) = true
  · simp [h1]
  · by_cases h2 : (jsGE rs (.num 40) || jsGE mc (.num 3)) = true
    · simp [h1, h2]
    · simp [h1, h2]

theorem verdictRank_classify_pos (rs mc : JVal) :
    1 ≤ verdictRank (classifyVerdict rs mc) := by
  rcases classifyVerdict_canonical rs mc with h | h | h <;> rw [h, verdictRank_str] <;> simp

theorem truthy_classify (rs mc : JVal) : truthy (classifyVerdict rs mc) = true := by
  rcases classifyVerdict_canonical rs mc with h | h | h <;> rw [h] <;> simp [truthy]

theorem verdictRank_of_not_truthy (v : JVal) (h : ¬ truthy v = true) :
    verdictRank v = 0 := by
  cases v with
  | str s =>
      have hs : s = "" := by simpa [truthy] using h
      subst hs; rfl
  | null => rfl
  | undef => rfl
  | nan => rfl
  | bool b =>
      have hb : b = false := by simpa [truthy] using h
      subst hb; rfl
  | num q =>
      have hq : q = 0 := by simpa [truthy] using h
      subst hq; rfl
  | arr xs => exact absurd rfl h
  | obj fs => exact absurd rfl h

/-- A value the rank table scores above `0` coerces (under the JS string
coercion of the lookup key) to one of the three canonical literals. -/
theorem verdictRank_pos_key (v : JVal) (h : 0 < verdictRank v) :
    jsToString v = "MALICIOUS" ∨ jsToString v = "SUSPICIOUS" ∨ jsToString v = "CLEAN" := by
  by_cases h3 : jsToString v = "MALICIOUS"
  · exact Or.inl h3
  · by_cases h2 : jsToString v = "SUSPICIOUS"
    · exact Or.inr (Or.inl h2)
    · by_cases h1 : jsToString v = "CLEAN"
      · exact Or.inr (Or.inr h1)
      · exfalso
        rw [verdictRank] at h
        simp only [h3, h2, h1, if_false] at h
        exact Nat.lt_irrefl 0 h

/-- The escalation merge in its rank normal form: the code's truthiness
guard is equivalent to the pure comparison of severity ranks, because
every value the table ranks above `0` is a truthy literal and the
computed verdict always ranks at least `1`. -/
theorem mergedVerdict_rank_form (c : JVal) :
    mergedVerdict c =
      if verdictRank (getField c "verdict") > verdictRank (computedVerdict c) then
        getField c "verdict"
      else computedVerdict c := by
  unfold mergedVerdict
  by_cases ht : truthy (getField c "verdict") = true
  · simp [ht]
  · have h0 : verdictRank (getField c "verdict") = 0 := verdictRank_of_not_truthy _ ht
    have hle : ¬ verdictRank (getField c "verdict") > verdictRank (computedVerdict c) := by
      rw [h0]; omega
    simp [ht, hle]

theorem isUndef_iff (v : JVal) : isUndef v = true ↔ v = .undef := by
  cases v <;> simp [isUndef]

/-- Index property `0` of a non-empty array is its head. -/
theorem getField_arr_cons_zero (x : JVal) (rest : List JVal) :
    getField (.arr (x :: rest)) "0" = x := by
  have h0 : toString (0 : Nat) = "0" := rfl
  simp [getField, baseFields, indexFields, lookupField, h0]

/-- The array-or-scalar extraction takes the head of a non-empty
sequence. -/
theorem arrayFirst_cons (x : JVal) (rest : List JVal) :
    arrayFirst (.arr (x :: rest)) = x := by
  simp [arrayFirst, isArr, getField_arr_cons_zero]

/-- The executable rounding agrees with the mathematical
`⌊q + 1/2⌋` (round half toward `+∞`, as JS `Math.round`). -/
theorem jsRound_eq_floor (q : ℚ) : jsRound q = ((⌊q + 1 / 2⌋ : ℤ) : ℚ) := by
  rw [jsRound, Rat.floor_def', Rat.floor_def]

theorem truthy_num_of_ne (q : ℚ) (h : q ≠ 0) : truthy (.num q) = true := by
  simp [truthy, h]

theorem jsOr_num_one_of_ne (v : JVal) (q : ℚ) (hv : v = .num q) (h : q ≠ 0) :
    jsOr v (.num 1) = .num q := by
  subst hv; simp [jsOr, truthy, h]

/-!
## Claim theorems
-/

/-- Concrete category used to refute claim C1: a pre-existing
`risk_score` of `5` together with explicit counts `30`/`60`. -/
def exC1 : JVal :=
  .obj [("risk_score", .num 5), ("malicious_count", .num 30), ("total_engines", .num 60)]

/-- C1 (counterexample): for the category `{risk_score: 5,
malicious_count: 30, total_engines: 60}` the overridden counts are `30`
and `60` and `round(30/60*100) = 50`, yet the output `risk_score` is the
pre-existing `5`, not `50` — the engine recomputes `riskScore` only for
classification and echoes a pre-existing `risk_score` field in the
output. -/
theorem C1_counterexample :
    mcFinal exC1 = .num 30 ∧ teFinal exC1 = .num 60 ∧
    jsRoundJ (jsMul (jsDiv (mcFinal exC1) (teFinal exC1)) (.num 100)) = .num 50 ∧
    getField (decideOne exC1) "risk_score" = .num 5 ∧
    JVal.num 5 ≠ JVal.num 50 := by
  have h1 : jsRoundJ (jsMul (jsDiv (mcFinal exC1) (teFinal exC1)) (.num 100)) =
      .num (jsRound ((30 : ℚ) / 60 * 100)) := rfl
  have h2 : jsRound ((30 : ℚ) / 60 * 100) = 50 := by rw [jsRound_eq_floor]; norm_num
  refine ⟨rfl, rfl, h1.trans (by rw [h2]), rfl, by simp⟩

/-- C1 (amended): with the overridden `maliciousCount = m` and
`totalEngines = t`, the output `risk_score` is `round(m/t*100)` when
`t > 0` and the category has no pre-existing `risk_score` field; a
pre-existing `risk_score` field is echoed unchanged; and with `t ≤ 0` and
no pre-existing field the output is `0`. -/
theorem C1_risk_score (c : JVal) (m t : ℚ)
    (hm : mcFinal c = .num m) (ht : teFinal c = .num t) :
    (0 < t → getField c "risk_score" = .undef →
        getField (decideOne c) "risk_score" = .num (jsRound (m / t * 100))) ∧
    (getField c "risk_score" ≠ .undef →
        getField (decideOne c) "risk_score" = getField c "risk_score") ∧
    (t ≤ 0 → getField c "risk_score" = .undef →
        getField (decideOne c) "risk_score" = .num 0) := by
  refine ⟨?_, ?_, ?_⟩
  · intro hpos hu
    rw [getField_decideOne_risk, hu]
    simp only [isUndef, if_true]
    unfold riskScoreCalc
    rw [ht, hm]
    rw [if_pos (show jsGT (.num t) (.num 0) = true by
          simp [jsGT, toNumber]; exact hpos)]
    simp [jsDiv, jsMul, jsRoundJ, toNumber]
  · intro hne
    rw [getField_decideOne_risk,
        if_neg (fun h => hne ((isUndef_iff _).mp h))]
  · intro hle hu
    rw [getField_decideOne_risk, hu]
    simp only [isUndef, if_true]
    unfold riskScoreCalc
    rw [ht, hu]
    rw [if_neg (show ¬ jsGT (.num t) (.num 0) = true by
          simp [jsGT, toNumber]; exact hle)]
    simp [truthy]

/-- Category instantiating the C1 witness: explicit counts, no
pre-existing `risk_score`. -/
def exC1w : JVal := .obj [("malicious_count", .num 30), ("total_engines", .num 60)]

/-- C1 (witness): on `{malicious_count: 30, total_engines: 60}` the
amended theorem applies and yields output `risk_score = 50`. -/
theorem C1_risk_score_witness :
    getField (decideOne exC1w) "risk_score" = .num (jsRound ((30 : ℚ) / 60 * 100)) :=
  (C1_risk_score exC1w 30 60 rfl rfl).1 (by norm_num) rfl

/-- C2 (counterexample): `riskScore = 69` with `maliciousCount = 2`
classifies as SUSPICIOUS (because `69 ≥ 40`), not CLEAN as the claim's
boundary example states. -/
theorem C2_counterexample :
    classifyVerdict (.num 69) (.num 2) = .str "SUSPICIOUS" ∧
    JVal.str "SUSPICIOUS" ≠ JVal.str "CLEAN" := by
  exact ⟨rfl, by simp⟩

/-- C2 (amended): the freshly computed verdict is MALICIOUS iff the
computed `riskScore ≥ 70` or `maliciousCount ≥ 10`, else SUSPICIOUS iff
`riskScore ≥ 40` or `maliciousCount ≥ 3`, else CLEAN; in particular
`riskScore = 69, maliciousCount = 2` gives SUSPICIOUS (not CLEAN),
`riskScore = 70` gives MALICIOUS, and `riskScore = 40, maliciousCount = 0`
gives SUSPICIOUS. -/
theorem C2_classification (c : JVal) (rs mc : ℚ)
    (hrs : riskScoreCalc c = .num rs) (hmc : mcFinal c = .num mc) :
    ((computedVerdict c = .str "MALICIOUS" ↔ (70 ≤ rs ∨ 10 ≤ mc)) ∧
     (computedVerdict c = .str "SUSPICIOUS" ↔
        (¬ (70 ≤ rs ∨ 10 ≤ mc) ∧ (40 ≤ rs ∨ 3 ≤ mc))) ∧
     (computedVerdict c = .str "CLEAN" ↔
        (¬ (70 ≤ rs ∨ 10 ≤ mc) ∧ ¬ (40 ≤ rs ∨ 3 ≤ mc)))) ∧
    (∀ v : JVal, classifyVerdict (.num 70) v = .str "MALICIOUS") ∧
    classifyVerdict (.num 69) (.num 2) = .str "SUSPICIOUS" ∧
    classifyVerdict (.num 40) (.num 0) = .str "SUSPICIOUS" := by
  have hcv : computedVerdict c = classifyVerdict (.num rs) (.num mc) := by
    rw [computedVerdict, hrs, hmc]
  refine ⟨?_, ?_, rfl, rfl⟩
  · rw [hcv]
    unfold classifyVerdict
    simp only [jsGE, toNumber]
    by_cases h1 : 70 ≤ rs ∨ 10 ≤ mc
    · rw [if_pos (by rcases h1 with h | h <;> simp [h])]
      simp [h1]
    · rw [if_neg (by push_neg at h1; simp [not_le.mpr h1.1, not_le.mpr h1.2])]
      by_cases h2 : 40 ≤ rs ∨ 3 ≤ mc
      · rw [if_pos (by rcases h2 with h | h <;> simp [h])]
        simp [h1, h2]
      · rw [if_neg (by push_neg at h2; simp [not_le.mpr h2.1, not_le.mpr h2.2])]
        simp [h1, h2]
  · intro v
    unfold classifyVerdict
    rw [if_pos]
    rw [Bool.or_eq_true]
    left
    simp [jsGE, toNumber]

/-- Category instantiating the C2 witness: counts `2` of `4` give a
computed `riskScore` of `50`. -/
def exC2w : JVal := .obj [("malicious_count", .num 2), ("total_engines", .num 4)]

/-- C2 (witness): on `{malicious_count: 2, total_engines: 4}` the
computed `riskScore` is `50`, the count is `2`, and the amended
classification yields SUSPICIOUS. -/
theorem C2_classification_witness :
    riskScoreCalc exC2w = .num 50 ∧ mcFinal exC2w = .num 2 ∧
    computedVerdict exC2w = .str "SUSPICIOUS" := by
  have h1 : riskScoreCalc exC2w = .num (jsRound ((2 : ℚ) / 4 * 100)) := rfl
  have h2 : jsRound ((2 : ℚ) / 4 * 100) = 50 := by rw [jsRound_eq_floor]; norm_num
  have hrs : riskScoreCalc exC2w = .num 50 := h1.trans (by rw [h2])
  refine ⟨hrs, rfl, ?_⟩
  exact ((C2_classification exC2w 50 2 hrs rfl).1.2.1).mpr (by norm_num)

/-- Category used to refute claim C3: its verdict is the array
`["SUSPICIOUS"]`, not a verdict literal. -/
def exC3 : JVal := .obj [("verdict", .arr [.str "SUSPICIOUS"])]

/-- C3 (counterexample): a category whose verdict is the array
`["SUSPICIOUS"]` carries no explicit verdict literal, so the claim says
the output is the freshly computed verdict (here CLEAN); but the JS
property lookup `verdictRank[category.verdict]` coerces the array to the
key `"SUSPICIOUS"` (rank 2 > 1), so the code keeps and emits the array
itself. -/
theorem C3_counterexample :
    isStr (getField exC3 "verdict") = false ∧
    computedVerdict exC3 = .str "CLEAN" ∧
    getField (decideOne exC3) "verdict" = .arr [.str "SUSPICIOUS"] ∧
    JVal.arr [.str "SUSPICIOUS"] ≠ .str "CLEAN" :=
  ⟨rfl, rfl, rfl, by simp⟩

/-- C3 (amended): the output verdict is the escalation merge; the merge
equals the pure comparison of severity ranks, where the rank of the
pre-existing verdict is taken after the JS string coercion of the lookup
key (so a non-literal value such as `["SUSPICIOUS"]` ranks like the
literal it coerces to, and is kept — uncoerced — when that rank exceeds
the computed verdict's rank); under that same coercion-aware rank the
output verdict's rank is never below the input verdict's rank. -/
theorem C3_escalation (c : JVal) :
    getField (decideOne c) "verdict" = mergedVerdict c ∧
    mergedVerdict c =
      (if verdictRank (getField c "verdict") > verdictRank (computedVerdict c) then
        getField c "verdict"
       else computedVerdict c) ∧
    verdictRank (getField c "verdict") ≤ verdictRank (getField (decideOne c) "verdict") := by
  refine ⟨getField_decideOne_verdict c, mergedVerdict_rank_form c, ?_⟩
  rw [getField_decideOne_verdict, mergedVerdict_rank_form]
  by_cases h : verdictRank (getField c "verdict") > verdictRank (computedVerdict c)
  · rw [if_pos h]
  · rw [if_neg h]; omega

/-- Payload used to refute claim C10: its verdict is the array
`["MALICIOUS"]`, which normalize's synthetic wrap passes through. -/
def exC10raw : JVal := .obj [("verdict", .arr [.str "MALICIOUS"])]

/-- C10 (counterexample): `normalize({verdict: ["MALICIOUS"]})` keeps the
truthy array in the synthetic category, and `decideVerdict` then emits
that array as the output verdict — the JS property lookup coerces the
array to the key `"MALICIOUS"` (rank 3), so it is not replaced, and the
output verdict is none of the three canonical literals. -/
theorem C10_counterexample :
    normalizeScanResponse exC10raw = .arr [syntheticCategory exC10raw] ∧
    getField (syntheticCategory exC10raw) "verdict" = .arr [.str "MALICIOUS"] ∧
    getField (decideOne (syntheticCategory exC10raw)) "verdict" = .arr [.str "MALICIOUS"] ∧
    JVal.arr [.str "MALICIOUS"] ≠ .str "CLEAN" ∧
    JVal.arr [.str "MALICIOUS"] ≠ .str "SUSPICIOUS" ∧
    JVal.arr [.str "MALICIOUS"] ≠ .str "MALICIOUS" :=
  ⟨rfl, rfl, rfl, by simp, by simp, by simp⟩

/-- C10 (amended): the output verdict coerces, under the JS string
coercion used for the rank lookup, to one of the three canonical
literals; it is literally canonical whenever the input verdict is a
string; and any input verdict whose coerced rank is `0` (UNKNOWN, an
arbitrary string, a number, a plain object, …) is always replaced by the
computed canonical verdict.  A truthy non-string input like
`["MALICIOUS"]`, whose coercion ranks above the computed verdict, is
kept uncoerced, so the output is not always a canonical literal. -/
theorem C10_canonical (c : JVal) :
    (jsToString (getField (decideOne c) "verdict") = "CLEAN" ∨
     jsToString (getField (decideOne c) "verdict") = "SUSPICIOUS" ∨
     jsToString (getField (decideOne c) "verdict") = "MALICIOUS") ∧
    (isStr (getField c "verdict") = true →
      (getField (decideOne c) "verdict" = .str "CLEAN" ∨
       getField (decideOne c) "verdict" = .str "SUSPICIOUS" ∨
       getField (decideOne c) "verdict" = .str "MALICIOUS")) ∧
    (verdictRank (getField c "verdict") = 0 →
      getField (decideOne c) "verdict" = computedVerdict c) := by
  have hcan : computedVerdict c = .str "MALICIOUS" ∨ computedVerdict c = .str "SUSPICIOUS"
      ∨ computedVerdict c = .str "CLEAN" :=
    classifyVerdict_canonical (riskScoreCalc c) (mcFinal c)
  refine ⟨?_, ?_, ?_⟩
  · rw [getField_decideOne_verdict, mergedVerdict_rank_form]
    by_cases h : verdictRank (getField c "verdict") > verdictRank (computedVerdict c)
    · rw [if_pos h]
      have hpos : 0 < verdictRank (getField c "verdict") :=
        lt_of_le_of_lt (Nat.zero_le _) h
      rcases verdictRank_pos_key _ hpos with hk | hk | hk <;> rw [hk] <;> tauto
    · rw [if_neg h]
      rcases hcan with hv | hv | hv <;> rw [hv] <;> simp [jsToString]
  · intro hstr
    rw [getField_decideOne_verdict, mergedVerdict_rank_form]
    by_cases h : verdictRank (getField c "verdict") > verdictRank (computedVerdict c)
    · rw [if_pos h]
      have hpos : 0 < verdictRank (getField c "verdict") :=
        lt_of_le_of_lt (Nat.zero_le _) h
      cases hg : getField c "verdict" with
      | str s =>
          rcases verdictRank_pos_key _ hpos with hk | hk | hk <;> rw [hg] at hk <;>
            simp only [jsToString] at hk <;> rw [hk] <;> tauto
      | null => rw [hg] at hstr; simp [isStr] at hstr
      | undef => rw [hg] at hstr; simp [isStr] at hstr
      | nan => rw [hg] at hstr; simp [isStr] at hstr
      | bool b => rw [hg] at hstr; simp [isStr] at hstr
      | num q => rw [hg] at hstr; simp [isStr] at hstr
      | arr xs => rw [hg] at hstr; simp [isStr] at hstr
      | obj fs => rw [hg] at hstr; simp [isStr] at hstr
    · rw [if_neg h]; tauto
  · intro h0
    rw [getField_decideOne_verdict, mergedVerdict_rank_form, h0]
    simp

/-- Category instantiating the C10 witness: an input verdict of UNKNOWN
(rank `0`). -/
def exC10w : JVal := .obj [("verdict", .str "UNKNOWN")]

/-- C10 (witness): the UNKNOWN verdict of a synthetic category is a
string of rank `0` and is replaced by the computed canonical verdict. -/
theorem C10_canonical_witness :
    isStr (getField exC10w "verdict") = true ∧
    verdictRank (getField exC10w "verdict") = 0 ∧
    getField (decideOne exC10w) "verdict" = computedVerdict exC10w :=
  ⟨rfl, rfl, (C10_canonical exC10w).2.2 rfl⟩

/-- Category used to refute claim C4: explicit counts with
`total_engines = 0`. -/
def exC4 : JVal := .obj [("malicious_count", .num 1), ("total_engines", .num 0)]

/-- C4 (counterexample): on `{malicious_count: 1, total_engines: 0}` the
first pass emits verdict CLEAN with `total_engines` forced to `1`; the
second pass then recomputes `riskScore = round(1/1*100) = 100` and
escalates to MALICIOUS, so `decideVerdict` is not idempotent on
categories with explicit counts when `total_engines` is `0`. -/
theorem C4_counterexample :
    getField (decideOne exC4) "verdict" = .str "CLEAN" ∧
    getField (decideOne (decideOne exC4)) "verdict" = .str "MALICIOUS" ∧
    decideVerdict (decideVerdict (.arr [exC4])) ≠ decideVerdict (.arr [exC4]) := by
  have hd : decideOne exC4 =
      .obj [("malicious_count", .num 1), ("total_engines", .num 1),
            ("verdict", .str "CLEAN"), ("risk_score", .num 0)] := rfl
  have h1 : getField (decideOne exC4) "verdict" = .str "CLEAN" := rfl
  have hrs : riskScoreCalc (decideOne exC4) = .num (jsRound ((1 : ℚ) / 1 * 100)) := rfl
  have hr100 : jsRound ((1 : ℚ) / 1 * 100) = 100 := by rw [jsRound_eq_floor]; norm_num
  have hrs' : riskScoreCalc (decideOne exC4) = .num 100 := hrs.trans (by rw [hr100])
  have hmc : mcFinal (decideOne exC4) = .num 1 := rfl
  have hcv : computedVerdict (decideOne exC4) = .str "MALICIOUS" := by
    rw [computedVerdict, hrs', hmc]; exact rfl
  have h2 : getField (decideOne (decideOne exC4)) "verdict" = .str "MALICIOUS" := by
    rw [getField_decideOne_verdict]
    simp [mergedVerdict, h1, hcv, truthy, verdictRank, jsToString]
  refine ⟨h1, h2, ?_⟩
  intro h
  have e1 : decideVerdict (.arr [exC4]) = .arr [decideOne exC4] := rfl
  have e2 : decideVerdict (decideVerdict (.arr [exC4])) =
      .arr [decideOne (decideOne exC4)] := by rw [e1]; exact rfl
  rw [e2, e1] at h
  simp only [JVal.arr.injEq, List.cons.injEq, and_true] at h
  rw [h, h1] at h2
  exact absurd h2 (by simp)

/-- C4 (amended): `decideVerdict` is idempotent on a singleton category
carrying explicit numeric `malicious_count` and `total_engines` fields
provided `total_engines` is nonzero (a zero `total_engines` is forced to
`1` on output, which changes the second pass, as the counterexample
shows). -/
theorem C4_idempotent (c : JVal) (m t : ℚ)
    (hm : getField c "malicious_count" = .num m)
    (ht : getField c "total_engines" = .num t) (htz : t ≠ 0) :
    decideVerdict (decideVerdict (.arr [c])) = decideVerdict (.arr [c]) := by
  have hmcF : mcFinal c = .num m := by rw [mcFinal, hm]; simp [isUndef]
  have hteF : teFinal c = .num t := by rw [teFinal, ht]; simp [isUndef]
  have hteOut : jsOr (teFinal c) (.num 1) = .num t := by
    rw [hteF]; simp [jsOr, truthy, htz]
  have hdmc : getField (decideOne c) "malicious_count" = .num m := by
    rw [getField_decideOne_mc, hmcF]
  have hdte : getField (decideOne c) "total_engines" = .num t := by
    rw [getField_decideOne_te, hteOut]
  have hdrs : getField (decideOne c) "risk_score" =
      (if isUndef (getField c "risk_score") then riskScoreCalc c
       else getField c "risk_score") := getField_decideOne_risk c
  have hdv : getField (decideOne c) "verdict" = mergedVerdict c :=
    getField_decideOne_verdict c
  have hmcFd : mcFinal (decideOne c) = .num m := by rw [mcFinal, hdmc]; simp [isUndef]
  have hteFd : teFinal (decideOne c) = .num t := by rw [teFinal, hdte]; simp [isUndef]
  -- the computed risk score and the emitted risk_score field are stable
  have hrsc_c : riskScoreCalc c =
      (if jsGT (.num t) (.num 0) then
         jsRoundJ (jsMul (jsDiv (.num m) (.num t)) (.num 100))
       else if truthy (getField c "risk_score") then getField c "risk_score"
       else .num 0) := by
    rw [riskScoreCalc, hteF, hmcF]
  have hrsc_d : riskScoreCalc (decideOne c) =
      (if jsGT (.num t) (.num 0) then
         jsRoundJ (jsMul (jsDiv (.num m) (.num t)) (.num 100))
       else if truthy (getField (decideOne c) "risk_score") then
         getField (decideOne c) "risk_score"
       else .num 0) := by
    rw [riskScoreCalc, hteFd, hmcFd]
  have hnum0 : ¬ jsGT (.num t) (.num 0) = true →
      getField c "risk_score" = .undef → riskScoreCalc c = .num 0 := by
    intro hgt hcu; rw [hrsc_c, if_neg hgt, hcu]; simp [truthy]
  have hrs_cases : (getField (decideOne c) "risk_score" = getField c "risk_score" ∧
        isUndef (getField c "risk_score") = false) ∨
      (getField (decideOne c) "risk_score" = riskScoreCalc c ∧
        getField c "risk_score" = .undef) := by
    cases hu : isUndef (getField c "risk_score") with
    | false => exact Or.inl ⟨by rw [hdrs]; simp [hu], rfl⟩
    | true => exact Or.inr ⟨by rw [hdrs]; simp [hu], (isUndef_iff _).mp hu⟩
  have hrs_eq : riskScoreCalc (decideOne c) = riskScoreCalc c := by
    rw [hrsc_c, hrsc_d]
    by_cases hgt : jsGT (.num t) (.num 0) = true
    · rw [if_pos hgt, if_pos hgt]
    · rw [if_neg hgt, if_neg hgt]
      rcases hrs_cases with ⟨he, _⟩ | ⟨he, hcu⟩
      · rw [he]
      · rw [he, hnum0 hgt hcu, hcu]
        simp [truthy]
  have hrs_ne : isUndef (getField (decideOne c) "risk_score") = false := by
    rcases hrs_cases with ⟨he, hu⟩ | ⟨he, hcu⟩
    · rw [he]; exact hu
    · rw [he, hrsc_c]
      by_cases hgt : jsGT (.num t) (.num 0) = true
      · rw [if_pos hgt]
        cases htn : toNumber (jsMul (jsDiv (.num m) (.num t)) (.num 100)) <;>
          simp [jsRoundJ, htn, isUndef]
      · rw [if_neg hgt, hcu]
        simp [truthy, isUndef]
  have hcvd : computedVerdict (decideOne c) = computedVerdict c := by
    rw [computedVerdict, computedVerdict, hrs_eq, hmcFd, hmcF]
  have hmvd : mergedVerdict (decideOne c) = mergedVerdict c := by
    rw [mergedVerdict_rank_form (decideOne c), hdv, hcvd,
        mergedVerdict_rank_form c]
    by_cases hP : verdictRank (getField c "verdict") > verdictRank (computedVerdict c)
    · rw [if_pos hP, if_pos hP]
    · rw [if_neg hP]
      simp
  have hrso_d : (if isUndef (getField (decideOne c) "risk_score") then
      riskScoreCalc (decideOne c) else getField (decideOne c) "risk_score") =
      getField (decideOne c) "risk_score" := by
    rw [hrs_ne]; simp
  -- second application is a no-op on the output object
  have key : decideOne (decideOne c) = decideOne c := by
    have hbase : baseFields (decideOne c) =
        setKey (setKey (setKey (setKey (baseFields c)
          "verdict" (mergedVerdict c))
          "risk_score" (if isUndef (getField c "risk_score") then riskScoreCalc c
            else getField c "risk_score"))
          "malicious_count" (mcFinal c))
          "total_engines" (jsOr (teFinal c) (.num 1)) := rfl
    have hcont : ∀ k : String, containsKey (baseFields (decideOne c)) k =
        (("verdict" = k : Bool) || ("risk_score" = k : Bool)
          || ("malicious_count" = k : Bool) || ("total_engines" = k : Bool)
          || containsKey (baseFields c) k) := by
      intro k
      rw [hbase]
      simp only [containsKey_setKey]
      by_cases h1 : "verdict" = k <;> by_cases h2 : "risk_score" = k <;>
        by_cases h3 : "malicious_count" = k <;> by_cases h4 : "total_engines" = k <;>
        simp [h1, h2, h3, h4]
    have hlook : ∀ k : String, lookupField (baseFields (decideOne c)) k =
        getField (decideOne c) k := fun _ => rfl
    have s1 : setKey (baseFields (decideOne c)) "verdict" (mergedVerdict (decideOne c)) =
        baseFields (decideOne c) := by
      apply setKey_noop
      · rw [hcont]; simp
      · rw [hlook, hdv, hmvd]
    have s2 : setKey (baseFields (decideOne c)) "risk_score"
        (if isUndef (getField (decideOne c) "risk_score") then
           riskScoreCalc (decideOne c)
         else getField (decideOne c) "risk_score") = baseFields (decideOne c) := by
      apply setKey_noop
      · rw [hcont]; simp
      · rw [hlook, hrso_d]
    have s3 : setKey (baseFields (decideOne c)) "malicious_count"
        (mcFinal (decideOne c)) = baseFields (decideOne c) := by
      apply setKey_noop
      · rw [hcont]; simp
      · rw [hlook, hdmc, hmcFd]
    have s4 : setKey (baseFields (decideOne c)) "total_engines"
        (jsOr (teFinal (decideOne c)) (.num 1)) = baseFields (decideOne c) := by
      apply setKey_noop
      · rw [hcont]; simp
      · rw [hlook, hdte, hteFd]
        simp [jsOr, truthy, htz]
    have hobj : decideOne c = .obj (baseFields (decideOne c)) := rfl
    calc decideOne (decideOne c)
        = .obj (setKey (setKey (setKey (setKey (baseFields (decideOne c))
            "verdict" (mergedVerdict (decideOne c)))
            "risk_score" (if isUndef (getField (decideOne c) "risk_score") then
               riskScoreCalc (decideOne c) else getField (decideOne c) "risk_score"))
            "malicious_count" (mcFinal (decideOne c)))
            "total_engines" (jsOr (teFinal (decideOne c)) (.num 1))) := rfl
      _ = .obj (baseFields (decideOne c)) := by rw [s1, s2, s3, s4]
      _ = decideOne c := hobj.symm
  show decideVerdict (decideVerdict (.arr [c])) = decideVerdict (.arr [c])
  have e1 : decideVerdict (.arr [c]) = .arr [decideOne c] := rfl
  rw [e1]
  show JVal.arr [decideOne (decideOne c)] = .arr [decideOne c]
  rw [key]

/-- Category instantiating the C4 witness: explicit counts with nonzero
`total_engines`. -/
def exC4w : JVal := .obj [("malicious_count", .num 0), ("total_engines", .num 60)]

/-- C4 (witness): on `{malicious_count: 0, total_engines: 60}` a second
pass of `decideVerdict` changes nothing. -/
theorem C4_idempotent_witness :
    decideVerdict (decideVerdict (.arr [exC4w])) = decideVerdict (.arr [exC4w]) :=
  C4_idempotent exC4w 0 60 rfl rfl (by norm_num)

/-- Payload used to refute claim C5: it has a `risk_score` field, but the
field is `0` and therefore falsy. -/
def exC5 : JVal := .obj [("risk_score", .num 0)]

/-- C5 (counterexample): `normalize({risk_score: 0})` is the empty
sequence, not a one-element synthetic wrap — the branch condition tests
truthiness of `verdict`/`risk_score` (and `Array.isArray` of `results`),
not field presence, and `0` is falsy. -/
theorem C5_counterexample :
    normalizeScanResponse exC5 = .arr [] ∧
    JVal.arr ([] : List JVal) ≠ .arr [syntheticCategory exC5] :=
  ⟨rfl, by simp⟩

/-- C5 (amended): for every object payload with no `categories` array and
no results-of-categories shape, if `verdict` is truthy or `risk_score` is
truthy or `results` is an array, the result is the one-element synthetic
wrap, whose fields carry the documented defaults. -/
theorem C5_synthetic_wrap (fs : List (String × JVal))
    (h1 : isArr (getField (.obj fs) "categories") = false)
    (h2 : (match getField (.obj fs) "results" with
           | .arr (r0 :: _) => truthy (getField r0 "verdict")
           | _ => false) = false)
    (h3 : (truthy (getField (.obj fs) "verdict") || truthy (getField (.obj fs) "risk_score")
           || isArr (getField (.obj fs) "results")) = true) :
    normalizeScanResponse (.obj fs) = .arr [syntheticCategory (.obj fs)] ∧
    getField (syntheticCategory (.obj fs)) "verdict" =
      jsOr (getField (.obj fs) "verdict") (.str "UNKNOWN") ∧
    getField (syntheticCategory (.obj fs)) "risk_score" =
      jsOr (getField (.obj fs) "risk_score") (.num 0) ∧
    getField (syntheticCategory (.obj fs)) "confidence" =
      jsOr (getField (.obj fs) "confidence") (.str "N/A") ∧
    getField (syntheticCategory (.obj fs)) "malicious_count" =
      jsOr (getField (.obj fs) "malicious_count") (.num 0) ∧
    getField (syntheticCategory (.obj fs)) "total_engines" =
      jsOr (getField (.obj fs) "total_engines") (.num 0) ∧
    getField (syntheticCategory (.obj fs)) "detections" =
      (match getField (.obj fs) "detections" with
       | .arr ds => .arr ds
       | _ => .arr []) ∧
    getField (syntheticCategory (.obj fs)) "results" =
      (match getField (.obj fs) "results" with
       | .arr rs => .arr (rs.map normalizeResult)
       | _ =>
         match getField (.obj fs) "items" with
         | .arr its => .arr (its.map normalizeResult)
         | _ => .arr []) ∧
    getField (syntheticCategory (.obj fs)) "count" =
      jsOr (getField (.obj fs) "count")
        (match getField (.obj fs) "results" with
         | .arr rs => .num rs.length
         | _ => .num 1) ∧
    getField (syntheticCategory (.obj fs)) "_raw" = .obj fs := by
  refine ⟨?_, rfl, rfl, rfl, rfl, rfl, rfl, rfl, rfl, rfl⟩
  cases hcat : getField (.obj fs) "categories" with
  | arr cats => rw [hcat] at h1; simp [isArr] at h1
  | null => simp [normalizeScanResponse, hcat, h2, h3]
  | undef => simp [normalizeScanResponse, hcat, h2, h3]
  | nan => simp [normalizeScanResponse, hcat, h2, h3]
  | bool b => simp [normalizeScanResponse, hcat, h2, h3]
  | num q => simp [normalizeScanResponse, hcat, h2, h3]
  | str s => simp [normalizeScanResponse, hcat, h2, h3]
  | obj fs2 => simp [normalizeScanResponse, hcat, h2, h3]

/-- Payload instantiating the C5 witness: a bare truthy `verdict`. -/
def exC5w : JVal := .obj [("verdict", .str "X")]

/-- C5 (witness): `normalize({verdict: "X"})` is the one-element wrap
with `risk_score = 0`, `confidence = "N/A"`, `malicious_count = 0`,
`total_engines = 0`, `count = 1`. -/
theorem C5_synthetic_wrap_witness :
    normalizeScanResponse exC5w = .arr [syntheticCategory exC5w] ∧
    getField (syntheticCategory exC5w) "risk_score" = .num 0 ∧
    getField (syntheticCategory exC5w) "confidence" = .str "N/A" ∧
    getField (syntheticCategory exC5w) "malicious_count" = .num 0 ∧
    getField (syntheticCategory exC5w) "total_engines" = .num 0 ∧
    getField (syntheticCategory exC5w) "count" = .num 1 :=
  ⟨(C5_synthetic_wrap [("verdict", .str "X")] rfl rfl rfl).1, rfl, rfl, rfl, rfl, rfl⟩

/-- Every shape the detector produces is an array. -/
theorem normalizeScanResponse_isArr (raw : JVal) :
    isArr (normalizeScanResponse raw) = true := by
  cases raw with
  | arr cats => rfl
  | obj fs =>
      cases hcat : getField (.obj fs) "categories" with
      | arr cats => simp [normalizeScanResponse, hcat, isArr]
      | null => simp only [normalizeScanResponse]; rw [hcat]; (repeat' split) <;> rfl
      | undef => simp only [normalizeScanResponse]; rw [hcat]; (repeat' split) <;> rfl
      | nan => simp only [normalizeScanResponse]; rw [hcat]; (repeat' split) <;> rfl
      | bool b => simp only [normalizeScanResponse]; rw [hcat]; (repeat' split) <;> rfl
      | num q => simp only [normalizeScanResponse]; rw [hcat]; (repeat' split) <;> rfl
      | str s => simp only [normalizeScanResponse]; rw [hcat]; (repeat' split) <;> rfl
      | obj fs2 => simp only [normalizeScanResponse]; rw [hcat]; (repeat' split) <;> rfl
  | null => rfl
  | undef => rfl
  | nan => rfl
  | bool b => rfl
  | num q => rfl
  | str s => rfl

/-- The `totalEngines || 1` output is truthy and is never the number 0. -/
theorem jsOr_one_truthy_ne_zero (v : JVal) :
    truthy (jsOr v (.num 1)) = true ∧ jsOr v (.num 1) ≠ .num 0 := by
  unfold jsOr
  by_cases hv : truthy v = true
  · rw [if_pos hv]
    refine ⟨hv, ?_⟩
    intro h
    rw [h] at hv
    simp [truthy] at hv
  · rw [if_neg hv]
    exact ⟨by simp [truthy], by simp⟩

/-- Entry shared by the C6 theorems: the passthrough category `{}` from
an array-shaped payload. -/
def exC6cat : JVal := normCatResults (.obj [])

/-- C6 (counterexample): the pipeline output for the array-shaped payload
`[{}]` is a single category whose `detections` field is absent
(`undefined`, not a sequence) — branches 1–3 of the detector never add a
`detections` field and `decideVerdict` does not set one either. -/
theorem C6_counterexample :
    decideVerdict (normalizeScanResponse (.arr [.obj []])) = .arr [decideOne exC6cat] ∧
    getField (decideOne exC6cat) "detections" = .undef ∧
    isArr (getField (decideOne exC6cat) "detections") = false :=
  ⟨rfl, rfl, rfl⟩

/-- C6 (amended): every category in the final pipeline output has a
truthy `total_engines` that is never the number `0`; the `detections`
field is guaranteed to be a (possibly empty) sequence only for the
synthetic categories of branches 4 and 5, while `decideVerdict` merely
preserves whatever `detections` value a passthrough category carried
(possibly absent, as the counterexample's payload shows). -/
theorem C6_pipeline_invariants (raw : JVal) :
    (∀ cs c, decideVerdict (normalizeScanResponse raw) = .arr cs → c ∈ cs →
        truthy (getField c "total_engines") = true ∧
        getField c "total_engines" ≠ .num 0) ∧
    (∀ cat : JVal, getField (decideOne cat) "detections" = getField cat "detections") ∧
    isArr (getField (syntheticCategory raw) "detections") = true ∧
    isArr (getField (scanResultCategory raw) "detections") = true := by
  refine ⟨?_, ?_, ?_, rfl⟩
  · intro cs c hcs hmem
    have hisarr := normalizeScanResponse_isArr raw
    cases hn : normalizeScanResponse raw with
    | arr l =>
        rw [hn] at hcs
        have hmap : JVal.arr (l.map decideOne) = .arr cs := hcs
        rw [JVal.arr.injEq] at hmap
        rw [← hmap] at hmem
        obtain ⟨c', _, rfl⟩ := List.mem_map.mp hmem
        rw [getField_decideOne_te]
        exact jsOr_one_truthy_ne_zero (teFinal c')
    | null => rw [hn] at hisarr; simp [isArr] at hisarr
    | undef => rw [hn] at hisarr; simp [isArr] at hisarr
    | nan => rw [hn] at hisarr; simp [isArr] at hisarr
    | bool b => rw [hn] at hisarr; simp [isArr] at hisarr
    | num q => rw [hn] at hisarr; simp [isArr] at hisarr
    | str s => rw [hn] at hisarr; simp [isArr] at hisarr
    | obj fs2 => rw [hn] at hisarr; simp [isArr] at hisarr
  · intro cat
    exact getField_decideOne_other cat "detections" (by decide) (by decide) (by decide) (by decide)
  · have hdet : getField (syntheticCategory raw) "detections" =
        (match getField raw "detections" with
         | .arr ds => .arr ds
         | _ => .arr []) := rfl
    rw [hdet]
    cases hd : getField raw "detections" <;> simp [isArr]

/-- C6 (witness): on the payload `[{}]` the pipeline's single output
category has a truthy, nonzero `total_engines`. -/
theorem C6_pipeline_invariants_witness :
    truthy (getField (decideOne exC6cat) "total_engines") = true ∧
    getField (decideOne exC6cat) "total_engines" ≠ .num 0 :=
  (C6_pipeline_invariants (.arr [.obj []])).1 [decideOne exC6cat] (decideOne exC6cat)
    rfl (List.mem_singleton.mpr rfl)

/-- Scan result used to refute claim C7: it already carries a
`favicon_src` field. -/
def exC7 : JVal := .obj [("favicon_src", .str "keep")]

/-- C7 (counterexample): `normalizeResult` overwrites an original
`favicon_src` field — for input `{favicon_src: "keep"}` no alias
resolves, so the canonical `favicon_src` layered on top is `null` and the
original value `"keep"` is lost, contradicting "no field discarded or
altered". -/
theorem C7_counterexample :
    getField (normalizeResult exC7) "favicon_src" = .null ∧
    JVal.null ≠ .str "keep" :=
  ⟨rfl, by simp⟩

/-- Reading any key off the output object of `normalizeResult` on a plain
object. -/
theorem getField_normalizeResult (fs : List (String × JVal)) (k : String) :
    getField (normalizeResult (.obj fs)) k =
      if "screenshot_src" = k then screenshotSrcOf (.obj fs)
      else if "favicon_src" = k then faviconSrcOf (.obj fs)
      else if "favicon_base64" = k then jsOr (faviconBase64Of (.obj fs)) .null
      else if "favicon_url" = k then jsOr (faviconUrlOf (.obj fs)) .null
      else getField (.obj fs) k := by
  have h : normalizeResult (.obj fs) =
      spreadUpdate (.obj fs)
        [("favicon_url", jsOr (faviconUrlOf (.obj fs)) .null),
         ("favicon_base64", jsOr (faviconBase64Of (.obj fs)) .null),
         ("favicon_src", faviconSrcOf (.obj fs)),
         ("screenshot_src", screenshotSrcOf (.obj fs))] := rfl
  rw [h]
  simp only [spreadUpdate, List.foldl, getField_obj, lookupField_setKey]
  rfl

/-- C7 (amended): `normalizeResult` preserves every original field except
the four canonical ones (`favicon_url`, `favicon_base64`, `favicon_src`,
`screenshot_src`), which it overwrites with the resolved values; every
non-object input passes through unchanged. -/
theorem C7_preservation :
    (∀ (fs : List (String × JVal)) (k : String),
       k ≠ "favicon_url" → k ≠ "favicon_base64" → k ≠ "favicon_src" →
       k ≠ "screenshot_src" →
       getField (normalizeResult (.obj fs)) k = getField (.obj fs) k) ∧
    (∀ fs : List (String × JVal),
       getField (normalizeResult (.obj fs)) "favicon_url" =
         jsOr (faviconUrlOf (.obj fs)) .null ∧
       getField (normalizeResult (.obj fs)) "favicon_base64" =
         jsOr (faviconBase64Of (.obj fs)) .null ∧
       getField (normalizeResult (.obj fs)) "favicon_src" = faviconSrcOf (.obj fs) ∧
       getField (normalizeResult (.obj fs)) "screenshot_src" =
         screenshotSrcOf (.obj fs)) ∧
    (normalizeResult .null = .null ∧ normalizeResult .undef = .undef ∧
     normalizeResult .nan = .nan ∧ (∀ b, normalizeResult (.bool b) = .bool b) ∧
     (∀ q : ℚ, normalizeResult (.num q) = .num q) ∧
     (∀ s, normalizeResult (.str s) = .str s)) := by
  refine ⟨?_, ?_, rfl, rfl, rfl, ?_, ?_, ?_⟩
  · intro fs k h1 h2 h3 h4
    rw [getField_normalizeResult, if_neg (fun h => h4 h.symm), if_neg (fun h => h3 h.symm),
        if_neg (fun h => h2 h.symm), if_neg (fun h => h1 h.symm)]
  · intro fs
    refine ⟨?_, ?_, ?_, ?_⟩ <;> simp [getField_normalizeResult]
  · intro b; cases b <;> rfl
  · intro q; simp [normalizeResult, isObjectTyped]
  · intro s; simp [normalizeResult, isObjectTyped]

/-- C7 (witness): on `{favicon_src: "keep", domain: "x.com"}` the
non-canonical field `domain` is preserved. -/
theorem C7_preservation_witness :
    getField (normalizeResult (.obj [("favicon_src", .str "keep"), ("domain", .str "x.com")]))
      "domain" =
    getField (.obj [("favicon_src", .str "keep"), ("domain", .str "x.com")]) "domain" :=
  C7_preservation.1 [("favicon_src", .str "keep"), ("domain", .str "x.com")] "domain"
    (by decide) (by decide) (by decide) (by decide)

/-- WHOIS record used to refute claim C8: the registrar is present only
under its normalization alias `sponsoring_registrar`. -/
def exC8 : JVal := .obj [("sponsoring_registrar", .str "GoDaddy")]

/-- C8 (counterexample): `hasWhoisData` rejects a record whose registrar
is present only as `sponsoring_registrar`, even though the field
normalization resolves that alias to `registrar` — the gate checks a
narrower key set than the alias tables, so the claim's "under any of its
known alias keys" fails, and `parseWhoisData` returns `null` for a record
that does carry WHOIS data under an alias. -/
theorem C8_counterexample :
    hasWhoisData exC8 = false ∧
    getField (normalizeWhoisFields exC8) "registrar" = .str "GoDaddy" ∧
    parseWhoisData (fun _ => none) (fun _ => "") 0 exC8 = .null :=
  ⟨rfl, rfl, rfl⟩

/-- C8 (amended): `hasWhoisData w` is true iff `w` is a truthy object
value and at least one of exactly the fourteen checked keys
(`domain_name`, `domain`, `registrar`, `org`, `organization`, `country`,
`creation_date`, `created`, `creationDate`, `expiration_date`, `expires`,
`expirationDate`, `name_servers`, `nameServers`) is truthy — a strict
subset of the aliases `normalizeWhoisFields` resolves; and
`parseWhoisData w` returns `null` exactly when `hasWhoisData w` is
false. -/
theorem C8_gate (w : JVal) :
    (hasWhoisData w = true ↔
      (truthy w = true ∧ isObjectTyped w = true ∧
        (truthy (getField w "domain_name") = true ∨ truthy (getField w "domain") = true ∨
         truthy (getField w "registrar") = true ∨ truthy (getField w "org") = true ∨
         truthy (getField w "organization") = true ∨ truthy (getField w "country") = true ∨
         truthy (getField w "creation_date") = true ∨ truthy (getField w "created") = true ∨
         truthy (getField w "creationDate") = true ∨
         truthy (getField w "expiration_date") = true ∨
         truthy (getField w "expires") = true ∨
         truthy (getField w "expirationDate") = true ∨
         truthy (getField w "name_servers") = true ∨
         truthy (getField w "nameServers") = true))) ∧
    (∀ (parseDate : String → Option ℚ) (fmtDate : ℚ → String) (now : ℚ),
       parseWhoisData parseDate fmtDate now w = .null ↔ hasWhoisData w = false) := by
  constructor
  · unfold hasWhoisData
    by_cases hg : (!truthy w || !isObjectTyped w) = true
    · rw [if_pos hg]
      simp only [Bool.or_eq_true, Bool.not_eq_true'] at hg
      constructor
      · intro h; exact absurd h (by simp)
      · rintro ⟨h1, h2, -⟩
        rcases hg with hg | hg
        · rw [hg] at h1; exact absurd h1 (by simp)
        · rw [hg] at h2; exact absurd h2 (by simp)
    · rw [if_neg hg]
      have hg' : truthy w = true ∧ isObjectTyped w = true := by
        constructor
        · cases h1 : truthy w with
          | true => rfl
          | false => exact absurd (by rw [h1]; rfl) hg
        · cases h2 : isObjectTyped w with
          | true => rfl
          | false => exact absurd (by rw [h2]; simp) hg
      simp [hg'.1, hg'.2, Bool.or_eq_true, or_assoc]
  · intro parseDate fmtDate now
    unfold parseWhoisData
    cases hh : hasWhoisData w with
    | true => simp [hh]
    | false => simp [hh]

/-- C8 (witness): a record carrying only a truthy `registrar` passes the
gate. -/
theorem C8_gate_witness :
    hasWhoisData (.obj [("registrar", .str "GoDaddy")]) = true ∧
    (parseWhoisData (fun _ => none) (fun _ => "") 0 (.obj [("registrar", .str "GoDaddy")]) = .null ↔
      hasWhoisData (.obj [("registrar", .str "GoDaddy")]) = false) :=
  ⟨(C8_gate (.obj [("registrar", .str "GoDaddy")])).1.mpr
      ⟨rfl, rfl, Or.inr (Or.inr (Or.inl rfl))⟩,
    (C8_gate (.obj [("registrar", .str "GoDaddy")])).2 (fun _ => none) (fun _ => "") 0⟩

/-- C9 (confirmed): for every non-empty date string the host parser
rejects, `formatWhoisDate` returns the original string unchanged (never
`null`) while the three derived numeric metrics return `null`; and when
the date value is a sequence, each function uses the first element. -/
theorem C9_unparseable_dates (parseDate : String → Option ℚ) (fmtDate : ℚ → String)
    (now : ℚ) (s : String) (rest : List JVal)
    (hs : s ≠ "") (hp : parseDate s = none) :
    formatWhoisDate parseDate fmtDate (.str s) = .str s ∧
    calculateDomainAge parseDate now (.str s) = .null ∧
    calculateDomainAgeInDays parseDate now (.str s) = .null ∧
    daysUntilExpiration parseDate now (.str s) = .null ∧
    formatWhoisDate parseDate fmtDate (.arr (.str s :: rest)) = .str s ∧
    calculateDomainAge parseDate now (.arr (.str s :: rest)) = .null ∧
    calculateDomainAgeInDays parseDate now (.arr (.str s :: rest)) = .null ∧
    daysUntilExpiration parseDate now (.arr (.str s :: rest)) = .null := by
  have htru : truthy (.str s) = true := by simp [truthy, hs]
  have hfirst : arrayFirst (.arr (.str s :: rest)) = .str s := arrayFirst_cons _ _
  have hfirst' : arrayFirst (.str s) = .str s := rfl
  refine ⟨?_, ?_, ?_, ?_, ?_, ?_, ?_, ?_⟩
  · rw [formatWhoisDate, if_neg (by rw [htru]; simp), hfirst',
        if_neg (by rw [htru]; simp)]
    simp [dateToMs, hp]
  · rw [calculateDomainAge, if_neg (by rw [htru]; simp), hfirst',
        if_neg (by rw [htru]; simp)]
    simp [dateToMs, hp]
  · rw [calculateDomainAgeInDays, if_neg (by rw [htru]; simp), hfirst',
        if_neg (by rw [htru]; simp)]
    simp [dateToMs, hp]
  · rw [daysUntilExpiration, if_neg (by rw [htru]; simp), hfirst',
        if_neg (by rw [htru]; simp)]
    simp [dateToMs, hp]
  · rw [formatWhoisDate, if_neg (by simp [truthy]), hfirst,
        if_neg (by rw [htru]; simp)]
    simp [dateToMs, hp]
  · rw [calculateDomainAge, if_neg (by simp [truthy]), hfirst,
        if_neg (by rw [htru]; simp)]
    simp [dateToMs, hp]
  · rw [calculateDomainAgeInDays, if_neg (by simp [truthy]), hfirst,
        if_neg (by rw [htru]; simp)]
    simp [dateToMs, hp]
  · rw [daysUntilExpiration, if_neg (by simp [truthy]), hfirst,
        if_neg (by rw [htru]; simp)]
    simp [dateToMs, hp]

/-- C9 (witness): the string `"notadate"` with a parser that rejects
everything: formatting echoes the string, the metrics are `null`, both
directly and as the first element of a sequence. -/
theorem C9_unparseable_dates_witness :
    formatWhoisDate (fun _ => none) (fun _ => "") (.str "notadate") = .str "notadate" ∧
    calculateDomainAge (fun _ => none) 0 (.str "notadate") = .null ∧
    daysUntilExpiration (fun _ => none) 0 (.arr [.str "notadate"]) = .null := by
  have h := C9_unparseable_dates (fun _ => none) (fun _ => "") 0 "notadate" []
    (by decide) rfl
  exact ⟨h.1, h.2.1, h.2.2.2.2.2.2.2⟩

end UrlScanner
